import Mathlib

/-!
Verification development for the bead repository.

Shallow embedding of the core data model and operations:
timestamps, the box query conditions (bead/box.py, bead/box_query.py),
the filesystem resolver (bead/box_rawfs.py), the SQLite index
(bead/box_index.py), archive name parsing (bead/archive.py) and the
provenance web coloring (bead_cli/web/dummy.py, bead_cli/web/sketch.py).
Machine integers do not occur; timestamps become `Int` microseconds.
-/

/-- Freshness lattice from bead_cli/web/freshness.py. -/
inductive Freshness
  | PHANTOM
  | SUPERSEDED
  | UP_TO_DATE
  | OUT_OF_DATE
deriving DecidableEq, Repr

/-- Input reference carried inside a bead's metadata (bead.meta.InputSpec;
the class itself is not under src/, fields as used by box_index.py and
bead_cli/web/dummy.py: name, kind, content_id, freeze_time_str). -/
structure InputSpec where
  name : String
  kind : String
  content_id : String
  freeze_time_str : String
deriving DecidableEq, Repr

/-- Query condition enum from bead/box.py and bead/box_query.py
(the two files declare the identical Enum). -/
inductive QueryCondition
  | BEAD_NAME
  | KIND
  | CONTENT_ID
  | AT_TIME
  | NEWER_THAN
  | OLDER_THAN
  | AT_OR_NEWER
  | AT_OR_OLDER
deriving DecidableEq, Repr

/-- Value attached to a query condition: Python passes strings for the
name/kind/content_id conditions and datetime instants (converted from
strings by time_from_timestamp) for the time conditions. -/
inductive CondValue
  | s (v : String)
  | t (v : Int)
deriving DecidableEq, Repr

/-- Decimal value of a digit character. -/
def digitVal (c : Char) : Nat := c.toNat - Char.toNat '0'

/-- Natural number denoted by a list of decimal digit characters. -/
def natOfDigits (cs : List Char) : Nat :=
  cs.foldl (fun a c => a * 10 + digitVal c) 0

/-- Modelled from the spec: days between 1970-01-01 and the civil date
(y, m, d), proleptic Gregorian calendar (used by the UTC normalization
of timestamps; bead/tech/timestamp.py is not under src/). -/
def daysFromCivil (y m d : Int) : Int :=
  let yAdj : Int := if m ≤ 2 then y - 1 else y
  let era : Int := Int.fdiv yAdj 400
  let yoe : Int := yAdj - era * 400
  let mp : Int := if m ≤ 2 then m + 9 else m - 3
  let doy : Int := Int.fdiv (153 * mp + 2) 5 + d - 1
  let doe : Int := yoe * 365 + Int.fdiv yoe 4 - Int.fdiv yoe 100 + doy
  era * 146097 + doe - 719468

/-- Modelled from the spec: `time_from_timestamp` of bead/tech/timestamp.py
is not under src/; per the spec, a timestamp string is a fixed-width
profile `YYYYMMDDTHHMMSS<microseconds>[+-]HHMM` with microsecond precision,
and conversion to integer microseconds since the epoch normalizes to UTC.
Malformed strings map to 0 (the spec guarantees parseability). -/
def timestampInstant (s : String) : Int :=
  match s.toList with
  | [y1, y2, y3, y4, mo1, mo2, dd1, dd2, tc,
     h1, h2, mi1, mi2, s1, s2,
     u1, u2, u3, u4, u5, u6,
     sg, o1, o2, o3, o4] =>
    if ([y1, y2, y3, y4, mo1, mo2, dd1, dd2, h1, h2, mi1, mi2, s1, s2,
         u1, u2, u3, u4, u5, u6, o1, o2, o3, o4].all Char.isDigit
        && (tc == 'T') && (sg == '+' || sg == '-')) then
      let days : Int :=
        daysFromCivil (natOfDigits [y1, y2, y3, y4]) (natOfDigits [mo1, mo2])
          (natOfDigits [dd1, dd2])
      let localSecs : Int :=
        days * 86400 + natOfDigits [h1, h2] * 3600 + natOfDigits [mi1, mi2] * 60
          + natOfDigits [s1, s2]
      let localMicro : Int := localSecs * 1000000 + natOfDigits [u1, u2, u3, u4, u5, u6]
      let offMicro : Int :=
        (if sg == '+' then (1 : Int) else -1)
          * (natOfDigits [o1, o2] * 3600 + natOfDigits [o3, o4] * 60) * 1000000
      localMicro - offMicro
    else 0
  | _ => 0

/-- Metadata view of a bead or archive, as read by the query paths
(name, kind, content_id, freeze_time_str accessors of bead/archive.py). -/
structure BeadMeta where
  name : String
  kind : String
  content_id : String
  freeze_time_str : String
deriving DecidableEq, Repr

/-- Cached derived instant (`freeze_time` property of archives and beads). -/
def BeadMeta.freeze_time (b : BeadMeta) : Int := timestampInstant b.freeze_time_str

/-- Lexicographic codepoint comparison of character lists: the order both
SQLite applies to TEXT values and Python applies to str values (for the
ASCII timestamp strings at hand, byte order and codepoint order agree). -/
def charListLt : List Char → List Char → Bool
  | [], [] => false
  | [], _ :: _ => true
  | _ :: _, [] => false
  | a :: as, b :: bs =>
    decide (a.toNat < b.toNat) || (decide (a.toNat = b.toNat) && charListLt as bs)

/-- Strict lexicographic order on strings, by codepoints. -/
def strLt (a b : String) : Bool := charListLt a.toList b.toList

/-- Reflexive lexicographic order on strings: not strictly greater. -/
def strLe (a b : String) : Bool := !(strLt b a)

/-- Asymmetry of the lexicographic character order. -/
theorem charListLt_asymm :
    ∀ a b : List Char, charListLt a b = true → charListLt b a = false := by
  intro a
  induction a with
  | nil =>
    intro b hab
    cases b with
    | nil => simp [charListLt] at hab
    | cons bb bs => rfl
  | cons aa as ih =>
    intro b hab
    cases b with
    | nil => simp [charListLt] at hab
    | cons bb bs =>
      simp only [charListLt, Bool.or_eq_true, Bool.and_eq_true, decide_eq_true_eq] at hab
      rw [Bool.eq_false_iff]
      simp only [ne_eq, charListLt, Bool.or_eq_true, Bool.and_eq_true, decide_eq_true_eq]
      push_neg
      rcases hab with hlt | ⟨heq, htl⟩
      · exact ⟨by omega, fun he => absurd he (by omega)⟩
      · exact ⟨by omega, fun _ => by simp [ih bs htl]⟩

/-- Hop property of the lexicographic character order: a strict descent
from c to a passes any b on one side or the other. -/
theorem charListLt_hop :
    ∀ c a b : List Char, charListLt c a = true →
      charListLt c b = true ∨ charListLt b a = true := by
  intro c
  induction c with
  | nil =>
    intro a b hca
    cases a with
    | nil => cases hca
    | cons aa as =>
      cases b with
      | nil => exact Or.inr rfl
      | cons bb bs => exact Or.inl rfl
  | cons cc cs ih =>
    intro a b hca
    cases a with
    | nil => cases hca
    | cons aa as =>
      cases b with
      | nil => exact Or.inr rfl
      | cons bb bs =>
        simp only [charListLt, Bool.or_eq_true, Bool.and_eq_true,
          decide_eq_true_eq] at hca ⊢
        rcases Nat.lt_trichotomy cc.toNat bb.toNat with hlt | heq | hgt
        · exact Or.inl (Or.inl hlt)
        · rcases hca with hlt2 | ⟨heq2, htl⟩
          · exact Or.inr (Or.inl (by omega))
          · rcases ih as bs htl with h | h
            · exact Or.inl (Or.inr ⟨heq, h⟩)
            · exact Or.inr (Or.inr ⟨by omega, h⟩)
        · rcases hca with hlt2 | ⟨heq2, htl⟩
          · exact Or.inr (Or.inl (by omega))
          · exact Or.inr (Or.inl (by omega))

/-- Asymmetry of the lexicographic string order. -/
theorem strLt_asymm (a b : String) : strLt a b = true → strLt b a = false :=
  charListLt_asymm a.toList b.toList

/-- Hop property of the lexicographic string order. -/
theorem strLt_hop (a b c : String) :
    strLt c a = true → strLt c b = true ∨ strLt b a = true :=
  charListLt_hop c.toList a.toList b.toList

namespace box

/-- Per-condition checkers of bead/box.py `_make_checkers` (lines 46-96),
compiled and conjoined by `compile_conditions` (lines 102-113).
Note the CONTENT_ID checker is `has_content_prefix`:
`bead.content_id.startswith(prefix)`, modelled as the character-list
prefix test. Time conditions compare the parsed `freeze_time` instant.
A value of the wrong shape never matches. -/
def checkerHolds (b : BeadMeta) : QueryCondition × CondValue → Bool
  | (.BEAD_NAME, .s v) => b.name == v
  | (.KIND, .s v) => b.kind == v
  | (.CONTENT_ID, .s v) => v.toList.isPrefixOf b.content_id.toList
  | (.AT_TIME, .t v) => b.freeze_time == v
  | (.NEWER_THAN, .t v) => decide (b.freeze_time > v)
  | (.OLDER_THAN, .t v) => decide (b.freeze_time < v)
  | (.AT_OR_NEWER, .t v) => decide (b.freeze_time ≥ v)
  | (.AT_OR_OLDER, .t v) => decide (b.freeze_time ≤ v)
  | (_, _) => false

/-- The match function produced by bead/box.py `compile_conditions`:
conjunction of all checkers. -/
def compile_conditions (conds : List (QueryCondition × CondValue)) (b : BeadMeta) : Bool :=
  conds.all (checkerHolds b)

end box

namespace rawfs

/-- Per-condition checkers of bead/box_rawfs.py `_CHECKERS` (lines 15-24).
Unlike bead/box.py, the CONTENT_ID checker is exact equality. -/
def checkerHolds (b : BeadMeta) : QueryCondition × CondValue → Bool
  | (.BEAD_NAME, .s v) => b.name == v
  | (.KIND, .s v) => b.kind == v
  | (.CONTENT_ID, .s v) => b.content_id == v
  | (.AT_TIME, .t v) => b.freeze_time == v
  | (.NEWER_THAN, .t v) => decide (b.freeze_time > v)
  | (.OLDER_THAN, .t v) => decide (b.freeze_time < v)
  | (.AT_OR_NEWER, .t v) => decide (b.freeze_time ≥ v)
  | (.AT_OR_OLDER, .t v) => decide (b.freeze_time ≤ v)
  | (_, _) => false

/-- The match function of bead/box_rawfs.py `compile_conditions` (lines 27-38). -/
def compile_conditions (conds : List (QueryCondition × CondValue)) (b : BeadMeta) : Bool :=
  conds.all (checkerHolds b)

end rawfs

/-- One row of the `beads` table of the SQLite index
(schema at bead/box_index.py lines 26-38). -/
structure IndexRow where
  name : String
  content_id : String
  kind : String
  freeze_name : String
  freeze_time_str : String
  file_path : String
deriving DecidableEq, Repr

/-- Metadata extracted from an archive file by ZipArchive (the class is not
under src/; the fields are exactly the accessors box_index.py and
box_rawfs.py read: name, content_id, kind, freeze_time_str, inputs). -/
structure ArchiveMeta where
  name : String
  content_id : String
  kind : String
  freeze_time_str : String
  inputs : List InputSpec
deriving DecidableEq, Repr

/-- A file of the box directory matched by the `*.zip` glob: its path
relative to the box directory, plus its archive metadata when it is a
valid archive (`none` models InvalidArchive / failed validation). -/
structure DiskFile where
  path : String
  meta : Option ArchiveMeta
deriving DecidableEq, Repr

namespace BoxIndex

/-- The row inserted for one archive by `_add_archive_to_index`
(bead/box_index.py lines 379-390); freeze_name is set to the name. -/
def rowOf (path : String) (m : ArchiveMeta) : IndexRow :=
  { name := m.name, content_id := m.content_id, kind := m.kind,
    freeze_name := m.name, freeze_time_str := m.freeze_time_str,
    file_path := path }

/-- Effect of SQLite `INSERT OR REPLACE` on the beads table: rows that
conflict on the UNIQUE(file_path) or UNIQUE(name, content_id) constraints
are replaced by the new row. -/
def insertOrReplace (rows : List IndexRow) (row : IndexRow) : List IndexRow :=
  rows.filter (fun r =>
    !(r.file_path == row.file_path)
      && !(r.name == row.name && r.content_id == row.content_id)) ++ [row]

/-- Effect of `_add_archive_to_index` (bead/box_index.py lines 365-409) on
the row set: a valid archive is inserted-or-replaced, an invalid one
raises InvalidArchive which the callers catch and count, leaving the rows
unchanged. -/
def add_archive_to_index (rows : List IndexRow) (f : DiskFile) : List IndexRow :=
  match f.meta with
  | some m => insertOrReplace rows (rowOf f.path m)
  | none => rows

/-- Effect of `BoxIndex.sync` (bead/box_index.py lines 279-325) on the
indexed rows: it selects the `*.zip` files whose relative path is not among
the indexed file_path values and indexes each of them; nothing else is
touched (in particular no row is ever deleted). -/
def sync (disk : List DiskFile) (rows : List IndexRow) : List IndexRow :=
  let indexedFiles := rows.map (fun r => r.file_path)
  let newFiles := disk.filter (fun f => !(indexedFiles.contains f.path))
  newFiles.foldl add_archive_to_index rows

/-- One conjunct of the SQL WHERE clause built by
`BoxIndex.compile_conditions` (bead/box_index.py lines 411-464), evaluated
on a row. Every comparison, including the four time conditions, is a
SQLite comparison on the TEXT column named in the clause; datetime values
are first turned into strings by `isoformat().replace` in the source, so
the value is modelled as the comparison string. -/
def whereHolds (row : IndexRow) : QueryCondition × String → Bool
  | (.BEAD_NAME, v) => row.name == v
  | (.KIND, v) => row.kind == v
  | (.CONTENT_ID, v) => row.content_id == v
  | (.AT_TIME, v) => row.freeze_time_str == v
  | (.NEWER_THAN, v) => strLt v row.freeze_time_str
  | (.OLDER_THAN, v) => strLt row.freeze_time_str v
  | (.AT_OR_NEWER, v) => strLe v row.freeze_time_str
  | (.AT_OR_OLDER, v) => strLe row.freeze_time_str v

/-- Ordering used by the `ORDER BY freeze_time_str` clause of
`BoxIndex.query` (bead/box_index.py line 483): lexicographic comparison
of the freeze_time_str TEXT column. -/
def rowLe (a b : IndexRow) : Prop := strLe a.freeze_time_str b.freeze_time_str = true

instance : DecidableRel rowLe := fun a b =>
  inferInstanceAs (Decidable (strLe a.freeze_time_str b.freeze_time_str = true))

instance : IsTotal IndexRow rowLe := by
  constructor
  intro a b
  unfold rowLe strLe
  cases h : strLt b.freeze_time_str a.freeze_time_str with
  | false => exact Or.inl rfl
  | true => exact Or.inr (by rw [strLt_asymm b.freeze_time_str a.freeze_time_str h]; rfl)

instance : IsTrans IndexRow rowLe := by
  constructor
  intro a b c hab hbc
  unfold rowLe strLe at hab hbc ⊢
  rw [Bool.not_eq_true'] at hab hbc ⊢
  cases h : strLt c.freeze_time_str a.freeze_time_str with
  | false => rfl
  | true =>
    exfalso
    rcases strLt_hop a.freeze_time_str b.freeze_time_str c.freeze_time_str h with h2 | h2
    · rw [hbc] at h2
      cases h2
    · rw [hab] at h2
      cases h2

/-- Result rows of `BoxIndex.query` (bead/box_index.py lines 466-527):
the rows satisfying every WHERE conjunct, ordered by ascending
freeze_time_str (a stable sort models SQLite's ORDER BY on that column). -/
def query (conds : List (QueryCondition × String)) (rows : List IndexRow) : List IndexRow :=
  List.insertionSort rowLe (rows.filter (fun r => conds.all (whereHolds r)))

/-- `BoxIndex.get_file_path` (bead/box_index.py lines 529-554): resolve
(name, content_id) to the stored file path, returning `none` when no row
matches (the source returns None, never raising). -/
def get_file_path (rows : List IndexRow) (name content_id : String) : Option String :=
  (rows.find? (fun r => r.name == name && r.content_id == content_id)).map
    (fun r => r.file_path)

end BoxIndex

namespace rawfs

/-- Glob pattern used by `_glob_bead_files` when a bead name is given
(bead/box_rawfs.py lines 57-63): the path is
`<name>_` followed by 8 characters, a literal T, 12 characters, a sign,
4 characters and the `.zip` extension. -/
def globMatch (name path : String) : Bool :=
  let cs := path.toList
  let pre := name.toList ++ ['_']
  (cs.take pre.length == pre)
    && (let rest := cs.drop pre.length
        rest.length == 30
          && rest.get? 8 == some 'T'
          && (rest.get? 21 == some '-' || rest.get? 21 == some '+')
          && rest.drop 26 == ['.', 'z', 'i', 'p'])

/-- Whether a disk file resolves the pair, per the loop body of
`RawFilesystemResolver.get_file_path` (bead/box_rawfs.py lines 120-129):
the file matches the name glob, opens as a valid archive (InvalidArchive
is skipped), and its metadata equals the requested name and content_id. -/
def matchingArchive (name content_id : String) (f : DiskFile) : Bool :=
  globMatch name f.path
    && (match f.meta with
        | some m => m.name == name && m.content_id == content_id
        | none => false)

/-- `RawFilesystemResolver.get_file_path` (bead/box_rawfs.py lines 111-131)
on a cold cache: the first matching archive's path, and LookupError when
none matches. -/
def get_file_path (disk : List DiskFile) (name content_id : String) : Except String String :=
  match disk.find? (matchingArchive name content_id) with
  | some f => Except.ok f.path
  | none => Except.error "LookupError: Bead not found"

end rawfs

/-- Builder state of `FileBasedSearch` (bead/box.py lines 225-333): the
accumulated conditions list and the uniqueness flag, as set in
`__init__` (`self.conditions = []`, `self._unique_filter = False`).
The box the search runs against is carried as its name. -/
structure FileBasedSearch where
  box : String
  conditions : List (QueryCondition × CondValue)
  unique_filter : Bool
deriving DecidableEq, Repr

namespace FileBasedSearch

/-- State of the builder after `by_name` (bead/box.py lines 235-237).
The Python method runs `self.conditions.append(...)` and then
`return self`: the builder is mutated in place and the returned object is
that same mutated builder, so this value is both the post-state of the
receiver and the returned value. -/
def by_name (q : FileBasedSearch) (name : String) : FileBasedSearch :=
  { q with conditions := q.conditions ++ [(.BEAD_NAME, .s name)] }

/-- State after `by_kind` (bead/box.py lines 239-241); mutates and returns self. -/
def by_kind (q : FileBasedSearch) (kind : String) : FileBasedSearch :=
  { q with conditions := q.conditions ++ [(.KIND, .s kind)] }

/-- State after `by_content_id` (bead/box.py lines 243-245); mutates and returns self. -/
def by_content_id (q : FileBasedSearch) (content_id : String) : FileBasedSearch :=
  { q with conditions := q.conditions ++ [(.CONTENT_ID, .s content_id)] }

/-- State after `at_time` (bead/box.py lines 247-251); a string argument is
parsed by time_from_timestamp into an instant; mutates and returns self. -/
def at_time (q : FileBasedSearch) (timestamp : String) : FileBasedSearch :=
  { q with conditions := q.conditions ++ [(.AT_TIME, .t (timestampInstant timestamp))] }

/-- State after `newer_than` (bead/box.py lines 253-257); mutates and returns self. -/
def newer_than (q : FileBasedSearch) (timestamp : String) : FileBasedSearch :=
  { q with conditions := q.conditions ++ [(.NEWER_THAN, .t (timestampInstant timestamp))] }

/-- State after `older_than` (bead/box.py lines 259-263); mutates and returns self. -/
def older_than (q : FileBasedSearch) (timestamp : String) : FileBasedSearch :=
  { q with conditions := q.conditions ++ [(.OLDER_THAN, .t (timestampInstant timestamp))] }

/-- State after `at_or_newer` (bead/box.py lines 265-269); mutates and returns self. -/
def at_or_newer (q : FileBasedSearch) (timestamp : String) : FileBasedSearch :=
  { q with conditions := q.conditions ++ [(.AT_OR_NEWER, .t (timestampInstant timestamp))] }

/-- State after `at_or_older` (bead/box.py lines 271-275); mutates and returns self. -/
def at_or_older (q : FileBasedSearch) (timestamp : String) : FileBasedSearch :=
  { q with conditions := q.conditions ++ [(.AT_OR_OLDER, .t (timestampInstant timestamp))] }

/-- State after `unique` (bead/box.py lines 277-279):
`self._unique_filter = True; return self`; mutates and returns self. -/
def unique (q : FileBasedSearch) : FileBasedSearch :=
  { q with unique_filter := true }

end FileBasedSearch

/-- Builder state of `MultiBoxSearch` (bead/box.py lines 336-453), the
multi-box twin of FileBasedSearch with the same mutate-and-return-self
append methods; the boxes are carried as their names. -/
structure MultiBoxSearch where
  boxes : List String
  conditions : List (QueryCondition × CondValue)
  unique_filter : Bool
deriving DecidableEq, Repr

namespace MultiBoxSearch

/-- State after `by_name` (bead/box.py lines 346-348); mutates and returns self. -/
def by_name (q : MultiBoxSearch) (name : String) : MultiBoxSearch :=
  { q with conditions := q.conditions ++ [(.BEAD_NAME, .s name)] }

/-- State after `by_kind` (bead/box.py lines 350-352); mutates and returns self. -/
def by_kind (q : MultiBoxSearch) (kind : String) : MultiBoxSearch :=
  { q with conditions := q.conditions ++ [(.KIND, .s kind)] }

/-- State after `by_content_id` (bead/box.py lines 354-356); mutates and returns self. -/
def by_content_id (q : MultiBoxSearch) (content_id : String) : MultiBoxSearch :=
  { q with conditions := q.conditions ++ [(.CONTENT_ID, .s content_id)] }

/-- State after `at_time` (bead/box.py lines 358-362); mutates and returns self. -/
def at_time (q : MultiBoxSearch) (timestamp : String) : MultiBoxSearch :=
  { q with conditions := q.conditions ++ [(.AT_TIME, .t (timestampInstant timestamp))] }

/-- State after `newer_than` (bead/box.py lines 364-368); mutates and returns self. -/
def newer_than (q : MultiBoxSearch) (timestamp : String) : MultiBoxSearch :=
  { q with conditions := q.conditions ++ [(.NEWER_THAN, .t (timestampInstant timestamp))] }

/-- State after `older_than` (bead/box.py lines 370-374); mutates and returns self. -/
def older_than (q : MultiBoxSearch) (timestamp : String) : MultiBoxSearch :=
  { q with conditions := q.conditions ++ [(.OLDER_THAN, .t (timestampInstant timestamp))] }

/-- State after `at_or_newer` (bead/box.py lines 376-380); mutates and returns self. -/
def at_or_newer (q : MultiBoxSearch) (timestamp : String) : MultiBoxSearch :=
  { q with conditions := q.conditions ++ [(.AT_OR_NEWER, .t (timestampInstant timestamp))] }

/-- State after `at_or_older` (bead/box.py lines 382-386); mutates and returns self. -/
def at_or_older (q : MultiBoxSearch) (timestamp : String) : MultiBoxSearch :=
  { q with conditions := q.conditions ++ [(.AT_OR_OLDER, .t (timestampInstant timestamp))] }

/-- State after `unique` (bead/box.py lines 388-390); mutates and returns self. -/
def unique (q : MultiBoxSearch) : MultiBoxSearch :=
  { q with unique_filter := true }

end MultiBoxSearch

/-- Unique identity key for beads within the web
(class Ref of bead_cli/web/dummy.py lines 109-133). -/
structure Ref where
  name : String
  content_id : String
deriving DecidableEq, Repr

/-- The Dummy bead of bead_cli/web/dummy.py lines 21-103, with the attrs
field defaults of lines 29-38. -/
structure Dummy where
  name : String := "UNKNOWN"
  content_id : String
  kind : String
  freeze_time_str : String
  inputs : List InputSpec := []
  input_map : List (String × String) := []
  freshness : Freshness := .SUPERSEDED
  box_name : String := ""
deriving DecidableEq, Repr

namespace Dummy

/-- Identity key of a Dummy (`Ref.from_bead`, dummy.py lines 126-128). -/
def ref (d : Dummy) : Ref := ⟨d.name, d.content_id⟩

/-- `get_input_bead_name` (dummy.py lines 86-90):
`self.input_map.get(input_nick, input_nick)`. -/
def get_input_bead_name (d : Dummy) (input_nick : String) : String :=
  match d.input_map.lookup input_nick with
  | some n => n
  | none => input_nick

/-- State of the bead after `set_freshness` (dummy.py lines 77-80): phantom
beads do not change freshness, every other bead takes the new value. -/
def set_freshness (d : Dummy) (f : Freshness) : Dummy :=
  if d.freshness = .PHANTOM then d else { d with freshness := f }

/-- `phantom_from_input` (dummy.py lines 60-75): the phantom's name is
`bead.get_input_bead_name(inputspec.name)`, its content_id, kind and
freeze_time_str come from the InputSpec, the other fields keep their attrs
defaults, and the freshness is then assigned PHANTOM directly. -/
def phantom_from_input (bead : Dummy) (inputspec : InputSpec) : Dummy :=
  { name := bead.get_input_bead_name inputspec.name,
    content_id := inputspec.content_id,
    kind := inputspec.kind,
    freeze_time_str := inputspec.freeze_time_str,
    freshness := .PHANTOM }

end Dummy

/-- Keyword parameter names accepted by the attrs-generated constructor of
Dummy (the kw_only fields of dummy.py lines 29-38). -/
def dummyCtorKeywords : List String :=
  ["name", "content_id", "kind", "freeze_time_str", "inputs",
   "input_map", "freshness", "box_name"]

/-- Keyword parameters the Dummy constructor requires (kw_only attrs
fields declared without a default in dummy.py: content_id, kind,
freeze_time_str). -/
def dummyCtorRequired : List String := ["content_id", "kind", "freeze_time_str"]

/-- Whether a call with the given keyword names is accepted by the Dummy
constructor: every keyword must name a field, and every required field
must be passed, else attrs raises TypeError. -/
def dummyCtorAccepts (kwargs : List String) : Bool :=
  kwargs.all (fun k => dummyCtorKeywords.contains k)
    && dummyCtorRequired.all (fun k => kwargs.contains k)

/-- Keyword names of the `Dummy(...)` call in `add_final_sink_to`
(bead_cli/web/sketch.py lines 93-99): name, content_id, kind,
timestamp_str, freshness. -/
def addFinalSinkKeywords : List String :=
  ["name", "content_id", "kind", "timestamp_str", "freshness"]

/-- Edge of the provenance web. The class lives in bead_cli/web/graph.py,
which is not under src/; modelled from the spec: an edge records the
source and destination beads (here by their Ref, the key the coloring
code groups by) and carries the input alias as label. -/
structure Edge where
  src : Ref
  dest : Ref
  label : String
deriving DecidableEq, Repr

/-- Head-selection key. Modelled from the spec: the head of a cluster is
the bead with maximum `freeze_time` (an instant), ties broken by
lexicographic `content_id` (bead_cli/web/cluster.py is not under src/). -/
def headKey (d : Dummy) : Int × String := (timestampInstant d.freeze_time_str, d.content_id)

/-- Strict lexicographic comparison of head keys. -/
def headKeyLt (a b : Int × String) : Bool :=
  a.1 < b.1 || (a.1 == b.1 && a.2 < b.2)

/-- Modelled from the spec: the head of a cluster, the member with the
maximal head key (first such member on ties of the full key). -/
def clusterHead : List Dummy → Option Dummy
  | [] => none
  | d :: ds =>
    match clusterHead ds with
    | none => some d
    | some m => if headKeyLt (headKey d) (headKey m) then some m else some d

/-- Members of the named cluster: the beads sharing the name
(spec: beads are partitioned by name). -/
def clusterOf (beads : List Dummy) (n : String) : List Dummy :=
  beads.filter (fun b => b.name == n)

/-- The distinct cluster names, in first-appearance order
(`create_cluster_index` groups beads by name; cluster.py is not under src/). -/
def clusterNames (beads : List Dummy) : List String :=
  (beads.map (fun b => b.name)).dedup

/-- Whether a bead is the head of its cluster. -/
def isClusterHead (beads : List Dummy) (b : Dummy) : Bool :=
  clusterHead (clusterOf beads b.name) == some b

/-- The cluster heads, one per cluster name. -/
def clusterHeadBeads (beads : List Dummy) : List Dummy :=
  (clusterNames beads).filterMap (fun n => clusterHead (clusterOf beads n))

/-- Refs of the cluster heads (`head_by_ref` keys of heads_of,
bead_cli/web/sketch.py line 75). -/
def headRefs (beads : List Dummy) : List Ref :=
  (clusterHeadBeads beads).map Dummy.ref

/-- Edges kept by `heads_of` (sketch.py line 76): those whose dest is a
cluster head. -/
def headEdges (beads : List Dummy) (edges : List Edge) : List Edge :=
  edges.filter (fun e => (headRefs beads).contains e.dest)

/-- Refs of the beads of the `heads_of` sketch (sketch.py lines 75-79):
the cluster heads together with the sources of the kept edges. -/
def headsOfRefs (beads : List Dummy) (edges : List Edge) : List Ref :=
  (headRefs beads ++ (headEdges beads edges).map (fun e => e.src)).dedup

/-- Look a bead up by its ref (the web indexes beads by Ref). -/
def findBead (beads : List Dummy) (r : Ref) : Option Dummy :=
  beads.find? (fun b => b.ref == r)

/-- The beads of the `heads_of` sketch, as bead values. -/
def headsOfBeads (beads : List Dummy) (edges : List Edge) : List Dummy :=
  (headsOfRefs beads edges).filterMap (findBead beads)

/-- Largest bead name length of a list (the `max` of sketch.py line 92,
with default 0). -/
def maxNameLen (l : List Dummy) : Nat :=
  l.foldl (fun m b => max m b.name.length) 0

/-- Name of the synthetic sink computed at sketch.py line 92: one more
star than the longest bead name of the sketch `add_final_sink_to` is
applied to (inside `color_beads`, the heads_of sketch). This line still
executes; the Dummy construction right after it raises. -/
def colorSinkName (beads : List Dummy) (edges : List Edge) : String :=
  String.mk (List.replicate (1 + maxNameLen (headsOfBeads beads edges)) '*')

/-- Result of `add_final_sink_to` (sketch.py lines 82-107) applied to a
sketch: line 92 computes the sink name, then lines 93-99 call the Dummy
constructor with the keyword names addFinalSinkKeywords. attrs accepts a
call exactly per dummyCtorAccepts; it rejects these keywords
(timestamp_str is not a field, the required freeze_time_str is missing),
so the construction raises TypeError and the function returns no extended
sketch: the sink edges of line 100 and the Sketch of lines 101-107 are
never built. The accepted-keywords branch is reached for no input, which
the impossibility proof records instead of inventing the sink value. -/
def add_final_sink_to (beads : List Dummy) (edges : List Edge) :
    Except String (List Dummy × List Edge) :=
  if h : dummyCtorAccepts addFinalSinkKeywords = true then
    absurd h (by decide)
  else
    Except.error "TypeError: Dummy got an unexpected keyword argument timestamp_str"

/-- Execution of `color_beads` (sketch.py lines 168-186): its first
statement (line 172) evaluates add_final_sink_to on the heads_of sketch
(heads_of itself, lines 69-79, completes, as does the sink-name
computation of line 92), and the TypeError raised by the sink Dummy
construction propagates out of color_beads. The toposort of line 173, the
freshness reset of lines 176-177 and the downgrade walk of lines 181-184
are never reached, and the Bool of line 186 is never returned. -/
def color_beads (beads : List Dummy) (edges : List Edge) : Except String Bool :=
  match add_final_sink_to (headsOfBeads beads edges) (headEdges beads edges) with
  | Except.ok _ => Except.ok true
  | Except.error e => Except.error e

/-- POSIX `os.path.basename`: the part of the path after the last slash. -/
def pyBasename (cs : List Char) : List Char :=
  ((cs.reverse.takeWhile (fun c => c ≠ '/')).reverse)

/-- Root part of CPython `os.path.splitext` applied to a basename: cut at
the last dot, unless every character before that dot is itself a dot
(leading dots of a hidden file are not an extension separator). -/
def pySplitextRoot (cs : List Char) : List Char :=
  if ((cs.reverse.takeWhile (fun c => c ≠ '.')).length = cs.reverse.length) then cs
  else
    if ((cs.reverse.drop ((cs.reverse.takeWhile (fun c => c ≠ '.')).length + 1)).reverse).any
        (fun c => c ≠ '.') then
      (cs.reverse.drop ((cs.reverse.takeWhile (fun c => c ≠ '.')).length + 1)).reverse
    else cs

/-- Character class `[-+0-9]` of the timestamp-suffix regex. -/
def timestampTailChar (c : Char) : Bool :=
  c.isDigit || c == '+' || c == '-'

/-- The optional `(?:[tT][-+0-9]*)?` part of the timestamp-suffix regex:
either nothing, or a t/T followed by characters of the tail class. -/
def timestampOptTail : List Char → Bool
  | [] => true
  | c :: cs => (c == 't' || c == 'T') && cs.all timestampTailChar

/-- Whether a string matches the full timestamp-suffix regex
`_[0-9]{8}(?:[tT][-+0-9]*)?` of `bead_name_from_file_path`
(bead/archive.py line 88); the pattern is anchored at the end of input,
so a match is always a whole suffix. -/
def matchesTimestampSuffix : List Char → Bool
  | [] => false
  | c :: rest =>
    c == '_' && (rest.take 8).length == 8 && (rest.take 8).all Char.isDigit
      && timestampOptTail (rest.drop 8)

/-- Start position of the leftmost match of the end-anchored regex: the
smallest index whose whole suffix matches (re.sub scans left to right). -/
def findSuffixMatchStart : List Char → Option Nat
  | [] => none
  | c :: tl =>
    if matchesTimestampSuffix (c :: tl) then some 0
    else (findSuffixMatchStart tl).map (fun i => i + 1)

/-- Effect of `re.sub(PAT, '', s)` for the end-anchored timestamp-suffix
pattern: remove the leftmost (hence longest) matching suffix, if any. -/
def stripTimestampSuffix (cs : List Char) : List Char :=
  match findSuffixMatchStart cs with
  | some i => cs.take i
  | none => cs

/-- `bead_name_from_file_path` (bead/archive.py lines 80-89): basename,
strip the extension, then strip a trailing timestamp suffix. -/
def bead_name_from_file_path (path : String) : String :=
  String.mk (stripTimestampSuffix (pySplitextRoot (pyBasename path.toList)))

/-- Appending an element changes a list. -/
theorem append_singleton_ne {α : Type} (l : List α) (x : α) : l ++ [x] ≠ l := by
  intro h
  have hl := congrArg List.length h
  simp at hl

/-- C1: the claim reads: for every box directory state, running the index
sync operation reconciles the index with the filesystem in both
directions, inserting new `*.zip` files and deleting entries whose
backing file no longer exists. The code only inserts: evaluated on an
index holding a row for bead1 (whose file is on disk) and an orphaned row
for bead2 (whose file was deleted), sync leaves both rows in place, the
orphan included, contradicting the repository's own test
test_sync_remove_deleted_file. -/
theorem sync_keeps_orphaned_entry :
    BoxIndex.sync
      [⟨"bead1_20230101T000000000000+0000.zip",
        some ⟨"bead1", "c1", "test-kind", "20230101T000000000000+0000", []⟩⟩]
      [⟨"bead1", "c1", "test-kind", "bead1", "20230101T000000000000+0000",
        "bead1_20230101T000000000000+0000.zip"⟩,
       ⟨"bead2", "c2", "test-kind", "bead2", "20230101T000000000000+0000",
        "bead2_20230101T000000000000+0000.zip"⟩]
      = [⟨"bead1", "c1", "test-kind", "bead1", "20230101T000000000000+0000",
          "bead1_20230101T000000000000+0000.zip"⟩,
         ⟨"bead2", "c2", "test-kind", "bead2", "20230101T000000000000+0000",
          "bead2_20230101T000000000000+0000.zip"⟩] := by
  decide

/-- C2 counterexample: the claim reads: the index evaluates time
predicates on the monotonic integer instant and orders results by the
instant, so strings with different offsets compare by their actual
instants. On two rows whose freeze_time_str carry offsets -0200 and
+0000, query returns the lexicographically smaller string first although
its instant is the larger one, and NEWER_THAN rejects a row whose instant
is in fact newer than the bound. -/
theorem index_time_compare_counterexample :
    BoxIndex.query []
        [⟨"b", "c2", "k", "b", "20250101T100000000000+0000", "p2"⟩,
         ⟨"a", "c1", "k", "a", "20250101T090000000000-0200", "p1"⟩]
      = [⟨"a", "c1", "k", "a", "20250101T090000000000-0200", "p1"⟩,
         ⟨"b", "c2", "k", "b", "20250101T100000000000+0000", "p2"⟩]
    ∧ timestampInstant "20250101T090000000000-0200"
        > timestampInstant "20250101T100000000000+0000"
    ∧ BoxIndex.whereHolds ⟨"a", "c1", "k", "a", "20250101T090000000000-0200", "p1"⟩
        (.NEWER_THAN, "20250101T095000000000+0000") = false
    ∧ timestampInstant "20250101T090000000000-0200"
        > timestampInstant "20250101T095000000000+0000" := by
  decide

/-- C2 as amended: `BoxIndex.query` evaluates every predicate, the time
predicates included, on the freeze_time_str TEXT column and orders its
result by ascending freeze_time_str string; the result contains exactly
the rows satisfying every condition. -/
theorem index_query_string_semantics (conds : List (QueryCondition × String))
    (rows : List IndexRow) :
    List.Sorted BoxIndex.rowLe (BoxIndex.query conds rows)
    ∧ ∀ r, r ∈ BoxIndex.query conds rows
        ↔ r ∈ rows ∧ conds.all (BoxIndex.whereHolds r) = true := by
  constructor
  · exact List.sorted_insertionSort BoxIndex.rowLe _
  · intro r
    unfold BoxIndex.query
    rw [(List.perm_insertionSort BoxIndex.rowLe _).mem_iff, List.mem_filter]

/-- C4 counterexample: the claim reads: CONTENT_ID matches exactly
(equality, not prefix match) identically on all three query paths. On the
bead/box.py file-based path the compiled CONTENT_ID condition accepts a
bead whose content_id merely starts with the queried value. -/
theorem content_id_prefix_counterexample :
    box.compile_conditions [(.CONTENT_ID, .s "a")] ⟨"n", "k", "abc", "t"⟩ = true
    ∧ (⟨"n", "k", "abc", "t"⟩ : BeadMeta).content_id ≠ "a" := by
  decide

/-- C4 as amended: the filesystem-resolver path and the index path match
CONTENT_ID by exact equality, but the bead/box.py file-based path matches
it as a prefix of the bead's content_id (has_content_prefix), so the
three paths do not behave identically. -/
theorem content_id_match_semantics (v : String) (b : BeadMeta) (r : IndexRow) :
    box.compile_conditions [(.CONTENT_ID, .s v)] b
        = v.toList.isPrefixOf b.content_id.toList
    ∧ rawfs.compile_conditions [(.CONTENT_ID, .s v)] b = (b.content_id == v)
    ∧ BoxIndex.whereHolds r (.CONTENT_ID, v) = (r.content_id == v) := by
  refine ⟨?_, ?_, rfl⟩
  · simp [box.compile_conditions, box.checkerHolds]
  · simp [rawfs.compile_conditions, rawfs.checkerHolds]

/-- C5 counterexample: the claim reads: the phantom's name equals the
input's local alias regardless of any input_map remapping on the
referencing bead. With input_map mapping alias a to other, the phantom
synthesized for the InputSpec named a gets name other. -/
theorem phantom_name_remap_counterexample :
    (Dummy.phantom_from_input
        ⟨"B", "c", "k", "t", [], [("a", "other")], .SUPERSEDED, ""⟩
        ⟨"a", "k2", "c2", "t2"⟩).name
      ≠ (⟨"a", "k2", "c2", "t2"⟩ : InputSpec).name := by
  decide

/-- C5 as amended: the synthesized phantom bead takes its name from
`bead.get_input_bead_name(inputspec.name)`, that is, the input_map
remapping of the referencing bead applied to the local alias (the alias
itself when unmapped); content_id, kind and freeze_time come from the
InputSpec and the freshness is PHANTOM. -/
theorem phantom_from_input_fields (bead : Dummy) (ispec : InputSpec) :
    (bead.phantom_from_input ispec).name = bead.get_input_bead_name ispec.name
    ∧ (bead.phantom_from_input ispec).content_id = ispec.content_id
    ∧ (bead.phantom_from_input ispec).kind = ispec.kind
    ∧ (bead.phantom_from_input ispec).freeze_time_str = ispec.freeze_time_str
    ∧ (bead.phantom_from_input ispec).freshness = .PHANTOM :=
  ⟨rfl, rfl, rfl, rfl, rfl⟩

/-- C6: once a bead's freshness is PHANTOM, any sequence of set_freshness
calls leaves it PHANTOM (dummy.py lines 77-80 guard every change). -/
theorem set_freshness_phantom_sticky (d : Dummy) (fs : List Freshness)
    (h : d.freshness = .PHANTOM) :
    (fs.foldl Dummy.set_freshness d).freshness = .PHANTOM := by
  induction fs generalizing d with
  | nil => exact h
  | cons f fs ih =>
    have hstep : Dummy.set_freshness d f = d := by
      unfold Dummy.set_freshness
      rw [if_pos h]
    rw [List.foldl_cons, hstep]
    exact ih d h

/-- C6 witness: a concrete phantom bead keeps PHANTOM across a concrete
sequence of set_freshness calls. -/
theorem set_freshness_phantom_sticky_witness :
    (([Freshness.UP_TO_DATE, Freshness.OUT_OF_DATE, Freshness.SUPERSEDED]).foldl
        Dummy.set_freshness
        ⟨"p", "c", "k", "t", [], [], .PHANTOM, ""⟩).freshness = .PHANTOM :=
  set_freshness_phantom_sticky ⟨"p", "c", "k", "t", [], [], .PHANTOM, ""⟩
    [Freshness.UP_TO_DATE, Freshness.OUT_OF_DATE, Freshness.SUPERSEDED] rfl

/-- C7 counterexample: the claim reads: each predicate-append returns a
new builder and leaves the receiver unchanged. The Python methods append
to self.conditions and return self, so the builder's state after the call
differs from its state before: by_name on a fresh builder changes it. -/
theorem builder_append_mutates_counterexample :
    FileBasedSearch.by_name ⟨"box", [], false⟩ "x" ≠ ⟨"box", [], false⟩ := by
  decide

/-- C7 as amended: every predicate-append of FileBasedSearch and
MultiBoxSearch mutates the builder in place, appending its condition to
the accumulated list (or setting the uniqueness flag) while leaving the
other state alone, and returns that same mutated builder; the receiver's
predicate list after the call is never its old value. -/
theorem search_builder_append_spec (q : FileBasedSearch) (m : MultiBoxSearch)
    (v ts : String) :
    ((q.by_name v).conditions = q.conditions ++ [(.BEAD_NAME, .s v)]
      ∧ (q.by_kind v).conditions = q.conditions ++ [(.KIND, .s v)]
      ∧ (q.by_content_id v).conditions = q.conditions ++ [(.CONTENT_ID, .s v)]
      ∧ (q.at_time ts).conditions
          = q.conditions ++ [(.AT_TIME, .t (timestampInstant ts))]
      ∧ (q.newer_than ts).conditions
          = q.conditions ++ [(.NEWER_THAN, .t (timestampInstant ts))]
      ∧ (q.older_than ts).conditions
          = q.conditions ++ [(.OLDER_THAN, .t (timestampInstant ts))]
      ∧ (q.at_or_newer ts).conditions
          = q.conditions ++ [(.AT_OR_NEWER, .t (timestampInstant ts))]
      ∧ (q.at_or_older ts).conditions
          = q.conditions ++ [(.AT_OR_OLDER, .t (timestampInstant ts))]
      ∧ (q.by_name v).unique_filter = q.unique_filter
      ∧ q.unique.unique_filter = true
      ∧ q.unique.conditions = q.conditions
      ∧ (q.by_name v).conditions ≠ q.conditions)
    ∧ ((m.by_name v).conditions = m.conditions ++ [(.BEAD_NAME, .s v)]
      ∧ (m.by_kind v).conditions = m.conditions ++ [(.KIND, .s v)]
      ∧ (m.by_content_id v).conditions = m.conditions ++ [(.CONTENT_ID, .s v)]
      ∧ (m.at_time ts).conditions
          = m.conditions ++ [(.AT_TIME, .t (timestampInstant ts))]
      ∧ (m.newer_than ts).conditions
          = m.conditions ++ [(.NEWER_THAN, .t (timestampInstant ts))]
      ∧ (m.older_than ts).conditions
          = m.conditions ++ [(.OLDER_THAN, .t (timestampInstant ts))]
      ∧ (m.at_or_newer ts).conditions
          = m.conditions ++ [(.AT_OR_NEWER, .t (timestampInstant ts))]
      ∧ (m.at_or_older ts).conditions
          = m.conditions ++ [(.AT_OR_OLDER, .t (timestampInstant ts))]
      ∧ (m.by_name v).unique_filter = m.unique_filter
      ∧ m.unique.unique_filter = true
      ∧ m.unique.conditions = m.conditions
      ∧ (m.by_name v).conditions ≠ m.conditions) :=
  ⟨⟨rfl, rfl, rfl, rfl, rfl, rfl, rfl, rfl, rfl, rfl, rfl,
    append_singleton_ne q.conditions (.BEAD_NAME, .s v)⟩,
   ⟨rfl, rfl, rfl, rfl, rfl, rfl, rfl, rfl, rfl, rfl, rfl,
    append_singleton_ne m.conditions (.BEAD_NAME, .s v)⟩⟩

/-- C8 counterexample: the claim reads: resolving an unknown
(name, content_id) raises LookupError on both paths rather than returning
None. On the index path, get_file_path returns None for an unknown pair,
here on an index holding one unrelated row. -/
theorem index_get_file_path_none_counterexample :
    BoxIndex.get_file_path [⟨"n2", "c2", "k", "n2", "t", "p.zip"⟩] "n" "c" = none := by
  decide

/-- C8 as amended: for an unknown (name, content_id) pair the filesystem
resolver raises LookupError, while the index path returns None. -/
theorem get_file_path_not_found (disk : List DiskFile) (rows : List IndexRow)
    (name cid : String)
    (hdisk : ∀ f ∈ disk, ∀ m, f.meta = some m → ¬(m.name = name ∧ m.content_id = cid))
    (hrows : ∀ r ∈ rows, ¬(r.name = name ∧ r.content_id = cid)) :
    rawfs.get_file_path disk name cid = Except.error "LookupError: Bead not found"
    ∧ BoxIndex.get_file_path rows name cid = none := by
  constructor
  · unfold rawfs.get_file_path
    have hnone : disk.find? (rawfs.matchingArchive name cid) = none := by
      rw [List.find?_eq_none]
      intro f hf
      unfold rawfs.matchingArchive
      cases hm : f.meta with
      | none => simp
      | some m =>
        have := hdisk f hf m hm
        simp only [Bool.and_eq_true, beq_iff_eq]
        intro hcontra
        exact this ⟨hcontra.2.1, hcontra.2.2⟩
    rw [hnone]
  · unfold BoxIndex.get_file_path
    have hnone : rows.find? (fun r => r.name == name && r.content_id == cid) = none := by
      rw [List.find?_eq_none]
      intro r hr
      have := hrows r hr
      simp only [Bool.and_eq_true, beq_iff_eq]
      intro hcontra
      exact this hcontra
    rw [hnone]
    rfl

/-- C8 witness: concrete unknown pair against a one-file directory and a
one-row index. -/
theorem get_file_path_not_found_witness :
    rawfs.get_file_path [⟨"p.zip", none⟩] "n" "c"
        = Except.error "LookupError: Bead not found"
    ∧ BoxIndex.get_file_path [⟨"n2", "c2", "k", "n2", "t", "q.zip"⟩] "n" "c" = none :=
  get_file_path_not_found [⟨"p.zip", none⟩] [⟨"n2", "c2", "k", "n2", "t", "q.zip"⟩]
    "n" "c" (by decide) (by decide)

/-- C10: the claim reads: add_final_sink_to creates a sink Dummy with a
longer-than-all name, freshness UP_TO_DATE and one incoming edge per
bead. The construction at sketch.py lines 93-99 passes the keyword
timestamp_str, which is not a field of Dummy, and omits the required
freeze_time_str field, so the attrs constructor rejects the call with
TypeError and no sink is ever built. -/
theorem add_final_sink_constructor_rejected :
    dummyCtorAccepts addFinalSinkKeywords = false := by
  decide

/-- toList distributes over string append (String.data_append restated). -/
theorem str_toList_append (s t : String) : (s ++ t).toList = s.toList ++ t.toList :=
  String.data_append s t

/-- takeWhile keeps a list all of whose elements satisfy the predicate. -/
theorem takeWhile_eq_self_of_all {α : Type} (p : α → Bool) :
    ∀ l : List α, (∀ c ∈ l, p c = true) → l.takeWhile p = l := by
  intro l
  induction l with
  | nil => intro; rfl
  | cons a tl ih =>
    intro h
    rw [List.takeWhile_cons_of_pos (h a (List.mem_cons_self a tl)),
      ih (fun c hc => h c (List.mem_cons_of_mem a hc))]

/-- basename is the identity on slash-free paths. -/
theorem pyBasename_eq_self (cs : List Char) (h : ∀ c ∈ cs, c ≠ '/') :
    pyBasename cs = cs := by
  unfold pyBasename
  rw [takeWhile_eq_self_of_all _ cs.reverse
    (fun c hc => decide_eq_true (h c (List.mem_reverse.mp hc)))]
  exact List.reverse_reverse cs

/-- Reduction of matchesTimestampSuffix on a nonempty list. -/
theorem matchesTimestampSuffix_cons (c : Char) (rest : List Char) :
    matchesTimestampSuffix (c :: rest)
      = (c == '_' && (rest.take 8).length == 8 && (rest.take 8).all Char.isDigit
          && timestampOptTail (rest.drop 8)) := rfl

/-- Reduction of timestampOptTail on a nonempty list. -/
theorem timestampOptTail_cons (c : Char) (cs : List Char) :
    timestampOptTail (c :: cs) = ((c == 't' || c == 'T') && cs.all timestampTailChar) := rfl

/-- Reduction of findSuffixMatchStart on a nonempty list. -/
theorem findSuffixMatchStart_cons (c : Char) (tl : List Char) :
    findSuffixMatchStart (c :: tl)
      = if matchesTimestampSuffix (c :: tl) = true then some 0
        else (findSuffixMatchStart tl).map (fun i => i + 1) := rfl

/-- splitext cuts exactly the `.zip` extension when the stem contains a
character other than a dot and the extension is the only dot region after
it; here the path is an arbitrary stem followed by `.zip`. -/
theorem pySplitextRoot_zip (A : List Char) (hA : ∃ c ∈ A, c ≠ '.') :
    pySplitextRoot (A ++ ['.', 'z', 'i', 'p']) = A := by
  unfold pySplitextRoot
  have hrev : (A ++ ['.', 'z', 'i', 'p']).reverse = 'p' :: 'i' :: 'z' :: '.' :: A.reverse := by
    rw [List.reverse_append]
    rfl
  rw [hrev]
  rw [List.takeWhile_cons_of_pos (by decide), List.takeWhile_cons_of_pos (by decide),
    List.takeWhile_cons_of_pos (by decide), List.takeWhile_cons_of_neg (by decide)]
  have hlen : ('p' :: 'i' :: 'z' :: '.' :: A.reverse).length = A.length + 4 := by
    simp
  rw [if_neg (by
    rw [hlen]
    simp only [List.length_cons, List.length_nil]
    omega)]
  have hdrop : ('p' :: 'i' :: 'z' :: '.' :: A.reverse).drop
      (('p' :: 'i' :: 'z' :: ([] : List Char)).length + 1) = A.reverse := rfl
  rw [hdrop, List.reverse_reverse]
  obtain ⟨c, hc, hcdot⟩ := hA
  rw [if_pos (List.any_eq_true.mpr ⟨c, hc, decide_eq_true hcdot⟩)]

/-- A string matching the timestamp-suffix pattern starts with an
underscore and contains no further underscore. -/
theorem matchesTimestampSuffix_shape (c : Char) (rest : List Char)
    (h : matchesTimestampSuffix (c :: rest) = true) : c = '_' ∧ '_' ∉ rest := by
  rw [matchesTimestampSuffix_cons] at h
  simp only [Bool.and_eq_true, beq_iff_eq] at h
  obtain ⟨⟨⟨hc, _⟩, hdig⟩, htail⟩ := h
  refine ⟨hc, fun hmem => ?_⟩
  rw [← List.take_append_drop 8 rest] at hmem
  rcases List.mem_append.mp hmem with hm | hm
  · exact absurd (List.all_eq_true.mp hdig _ hm) (by decide)
  · cases hdrop : rest.drop 8 with
    | nil =>
      rw [hdrop] at hm
      cases hm
    | cons c2 cs =>
      rw [hdrop] at hm htail
      rw [timestampOptTail_cons] at htail
      simp only [Bool.and_eq_true, Bool.or_eq_true, beq_iff_eq] at htail
      rcases List.mem_cons.mp hm with hm2 | hm2
      · rcases htail.1 with h2 | h2
        · rw [← hm2] at h2
          exact absurd h2 (by decide)
        · rw [← hm2] at h2
          exact absurd h2 (by decide)
      · exact absurd (List.all_eq_true.mp htail.2 _ hm2) (by decide)

/-- The well-formed timestamp tail of the archive filename convention
matches the timestamp-suffix pattern as a whole. -/
theorem matchesTimestampSuffix_of_convention (d8 d6 micro d4 : List Char) (sign : Char)
    (h8len : d8.length = 8) (h8 : ∀ c ∈ d8, c.isDigit = true)
    (h6 : ∀ c ∈ d6, c.isDigit = true)
    (hmic : ∀ c ∈ micro, c.isDigit = true)
    (hsign : sign = '+' ∨ sign = '-')
    (h4 : ∀ c ∈ d4, c.isDigit = true) :
    matchesTimestampSuffix ('_' :: (d8 ++ 'T' :: (d6 ++ micro ++ sign :: d4))) = true := by
  rw [matchesTimestampSuffix_cons, List.take_left' h8len, List.drop_left' h8len,
    timestampOptTail_cons]
  simp only [Bool.and_eq_true, Bool.or_eq_true, beq_iff_eq]
  refine ⟨⟨⟨trivial, h8len⟩, List.all_eq_true.mpr h8⟩, Or.inr trivial, List.all_eq_true.mpr ?_⟩
  intro c hc
  unfold timestampTailChar
  rcases List.mem_append.mp hc with hc2 | hc2
  · rcases List.mem_append.mp hc2 with hc3 | hc3
    · rw [h6 c hc3]
      rfl
    · rw [hmic c hc3]
      rfl
  · rcases List.mem_cons.mp hc2 with hc3 | hc3
    · rcases hsign with hs | hs <;> rw [hc3, hs] <;> decide
    · rw [h4 c hc3]
      rfl

/-- The leftmost suffix match in `<prefix>_<timestamp>` starts exactly at
the separator: no match can start inside the prefix because any match is
a whole suffix starting with its only underscore, yet every suffix
starting inside the prefix still contains the separator underscore. -/
theorem findSuffixMatchStart_append (x T : List Char)
    (hT : matchesTimestampSuffix ('_' :: T) = true) :
    findSuffixMatchStart (x ++ '_' :: T) = some x.length := by
  induction x with
  | nil =>
    rw [List.nil_append, findSuffixMatchStart_cons, if_pos hT]
    rfl
  | cons c xs ih =>
    have hfalse : matchesTimestampSuffix (c :: (xs ++ '_' :: T)) = false := by
      cases hm : matchesTimestampSuffix (c :: (xs ++ '_' :: T)) with
      | false => rfl
      | true =>
        obtain ⟨_, hnou⟩ := matchesTimestampSuffix_shape c (xs ++ '_' :: T) hm
        exact absurd (List.mem_append.mpr (Or.inr (List.mem_cons_self '_' T))) hnou
    show findSuffixMatchStart (c :: (xs ++ '_' :: T)) = some (xs.length + 1)
    rw [findSuffixMatchStart_cons, if_neg (by rw [hfalse]; exact Bool.false_ne_true), ih]
    rfl

/-- C9: parsing the archive file path `<name>_<freeze_time>.zip` back
through bead_name_from_file_path returns exactly the bead name, for every
slash-free name (underscores and digit runs included) and every
freeze_time of the convention YYYYMMDDTHHMMSS microseconds, sign, HHMM. -/
theorem bead_name_round_trip (n : String) (d8 d6 micro d4 : List Char) (sign : Char)
    (hn : ∀ c ∈ n.toList, c ≠ '/')
    (h8len : d8.length = 8) (h8 : ∀ c ∈ d8, c.isDigit = true)
    (h6len : d6.length = 6) (h6 : ∀ c ∈ d6, c.isDigit = true)
    (hmic : ∀ c ∈ micro, c.isDigit = true)
    (hsign : sign = '+' ∨ sign = '-')
    (h4len : d4.length = 4) (h4 : ∀ c ∈ d4, c.isDigit = true) :
    bead_name_from_file_path
        (n ++ "_" ++ String.mk (d8 ++ 'T' :: (d6 ++ micro ++ sign :: d4)) ++ ".zip")
      = n := by
  have hTchars : ∀ c ∈ d8 ++ 'T' :: (d6 ++ micro ++ sign :: d4),
      c.isDigit = true ∨ c = 'T' ∨ c = sign := by
    intro c hc
    rcases List.mem_append.mp hc with hc2 | hc2
    · exact Or.inl (h8 c hc2)
    · rcases List.mem_cons.mp hc2 with hc3 | hc3
      · exact Or.inr (Or.inl hc3)
      · rcases List.mem_append.mp hc3 with hc4 | hc4
        · rcases List.mem_append.mp hc4 with hc5 | hc5
          · exact Or.inl (h6 c hc5)
          · exact Or.inl (hmic c hc5)
        · rcases List.mem_cons.mp hc4 with hc5 | hc5
          · exact Or.inr (Or.inr hc5)
          · exact Or.inl (h4 c hc5)
  have hdigit_ne : ∀ (c d : Char), c.isDigit = true → d.isDigit = false → c ≠ d := by
    intro c d hc hd he
    rw [he, hd] at hc
    cases hc
  have hlist : (n ++ "_" ++ String.mk (d8 ++ 'T' :: (d6 ++ micro ++ sign :: d4))
        ++ ".zip").toList
      = (n.toList ++ '_' :: (d8 ++ 'T' :: (d6 ++ micro ++ sign :: d4)))
        ++ ['.', 'z', 'i', 'p'] := by
    rw [str_toList_append, str_toList_append, str_toList_append]
    show n.toList ++ ['_'] ++ (d8 ++ 'T' :: (d6 ++ micro ++ sign :: d4))
        ++ ['.', 'z', 'i', 'p'] = _
    simp only [List.append_assoc, List.singleton_append]
  unfold bead_name_from_file_path
  rw [hlist]
  rw [pyBasename_eq_self _ ?hslash]
  case hslash =>
    intro c hc
    rcases List.mem_append.mp hc with hc2 | hc2
    · rcases List.mem_append.mp hc2 with hc3 | hc3
      · exact hn c hc3
      · rcases List.mem_cons.mp hc3 with hc4 | hc4
        · rw [hc4]
          decide
        · rcases hTchars c hc4 with hd | hd | hd
          · exact hdigit_ne c '/' hd (by decide)
          · rw [hd]
            decide
          · rcases hsign with hs | hs <;> rw [hd, hs] <;> decide
    · simp only [List.mem_cons, List.not_mem_nil, or_false] at hc2
      rcases hc2 with h | h | h | h <;> rw [h] <;> decide
  rw [pySplitextRoot_zip _ ⟨'_', List.mem_append.mpr (Or.inr (List.mem_cons_self _ _)), by decide⟩]
  unfold stripTimestampSuffix
  rw [findSuffixMatchStart_append n.toList _
    (matchesTimestampSuffix_of_convention d8 d6 micro d4 sign h8len h8 h6 hmic hsign h4)]
  show String.mk ((n.toList ++ '_' :: (d8 ++ 'T' :: (d6 ++ micro ++ sign :: d4))).take
    n.toList.length) = n
  rw [List.take_left]
  rfl

/-- C9 witness: a concrete round trip through a name with an underscore
and a trailing digit run. -/
theorem bead_name_round_trip_witness :
    bead_name_from_file_path
        ("bead-2015v3_a_12345678" ++ "_"
          ++ String.mk (['2', '0', '1', '5', '0', '9', '2', '3']
              ++ 'T' :: (['0', '1', '0', '2', '0', '3']
                ++ ['0', '1', '2', '3', '4', '5'] ++ '+' :: ['0', '2', '0', '0']))
          ++ ".zip")
      = "bead-2015v3_a_12345678" :=
  bead_name_round_trip "bead-2015v3_a_12345678"
    ['2', '0', '1', '5', '0', '9', '2', '3'] ['0', '1', '0', '2', '0', '3']
    ['0', '1', '2', '3', '4', '5'] ['0', '2', '0', '0'] '+'
    (by decide) (by decide) (by decide) (by decide) (by decide)
    (by decide) (Or.inl rfl) (by decide) (by decide)

/-- C3: the claim reads: for every acyclic bead set, after color_beads
completes, every cluster head with freshness UP_TO_DATE has all its input
edge sources UP_TO_DATE, and every cluster head with a non-UP_TO_DATE
input source is OUT_OF_DATE. color_beads never completes: its first step
applies add_final_sink_to to the heads sketch, and the sink Dummy
construction at sketch.py line 97 raises TypeError before the coloring
walk runs. Evaluated here on the two-cluster bead set of the spec's
scenario 6 (head b1 referencing the superseded a1), which the claim would
color, color_beads yields the propagated TypeError instead of a colored
bead set. -/
theorem color_beads_raises_typeerror :
    color_beads
        [⟨"a", "a1", "k", "20240101T000000000000+0000", [], [], .SUPERSEDED, ""⟩,
         ⟨"a", "a2", "k", "20240102T000000000000+0000", [], [], .SUPERSEDED, ""⟩,
         ⟨"b", "b1", "k", "20240103T000000000000+0000", [], [], .SUPERSEDED, ""⟩]
        [⟨⟨"a", "a1"⟩, ⟨"b", "b1"⟩, "in"⟩]
      = Except.error "TypeError: Dummy got an unexpected keyword argument timestamp_str" := by
  rfl
